import Mathlib

/-!
Verification of the DebateGraph incremental argument-graph analysis engine.

The backend core (GraphStore, StructuralAnalyzer, RigorScorer,
UpdateCoordinator) is embedded from the system specification; the frontend
artifacts (the TypeScript FallacyAnnotation interface in types.ts, the
GraphView rendering and filtering passes) are embedded from the TypeScript
sources.  Machine reals are modelled as exact rationals.
-/

/-- Modelled from the spec: claim_type enumeration (spec section 3, mirrored by
the frontend ClaimType union in types.ts). -/
inductive ClaimType
  | premise
  | conclusion
  | concession
  | rebuttal
deriving DecidableEq

/-- Modelled from the spec: relation_type enumeration (spec section 3, mirrored
by the frontend EdgeType union in types.ts). -/
inductive RelationType
  | support
  | attack
  | undercut
  | reformulation
  | implication
deriving DecidableEq

/-- Fact-check verdict enumeration, from the FactCheckVerdict union in
types.ts (the spec section 6 lists the same values without pending). -/
inductive FactCheckVerdict
  | supported
  | refuted
  | unverifiable
  | partially_true
  | pending
deriving DecidableEq

/-- Fallacy type enumeration, from the FallacyType union in types.ts. -/
inductive FallacyType
  | strawman
  | goal_post_moving
  | circular_reasoning
  | ad_hominem
  | slippery_slope
  | appeal_to_emotion
  | false_dilemma
  | red_herring
  | appeal_to_authority
  | hasty_generalization
  | tu_quoque
  | equivocation
  | none
deriving DecidableEq

/-- Modelled from the spec: detection_method enumeration of spec section 3.
The backend sources carrying it are not in the repository snapshot; the
frontend mirror (types.ts) omits this field, see the theorems on
fallacyAnnFieldsTS. -/
inductive DetectionMethod
  | structural
  | rule_based
  | llm
deriving DecidableEq

/-- Fact-check result attached to a claim, from FactCheckResult in types.ts. -/
structure FactCheckResult where
  claim_id : String
  verdict : FactCheckVerdict
  confidence : ℚ
  sources : List String
  explanation : String
deriving DecidableEq

/-- Modelled from the spec: the backend fallacy record of spec section 3
(claim_id, fallacy_type, severity, explanation, socratic_question,
related_claim_ids, detection_method).  The backend sources are not in the
repository snapshot. -/
structure FallacyAnn where
  claim_id : String
  fallacy_type : FallacyType
  severity : ℚ
  explanation : String
  socratic_question : String
  related_claim_ids : List String
  detection_method : DetectionMethod
deriving DecidableEq

/-- The field names of the FallacyAnnotation interface of
src/frontend/src/types.ts lines 56-63, in declaration order. -/
def fallacyAnnFieldsTS : List String :=
  ["claim_id", "fallacy_type", "severity", "explanation", "socratic_question",
   "related_claim_ids"]

/-- Modelled from the spec: ClaimNode of spec section 3 (the GraphNode mirror
in types.ts flattens factcheck_verdict out of factcheck; the core record is
specified in section 3). -/
structure ClaimNode where
  id : String
  speaker : String
  text : String
  claim_type : ClaimType
  timestamp_start : ℚ
  timestamp_end : ℚ
  confidence : ℚ
  is_factual : Bool
  factcheck : Option FactCheckResult
  fallacies : List FallacyAnn
deriving DecidableEq

/-- Modelled from the spec: RelationEdge of spec section 3. -/
structure RelationEdge where
  source_id : String
  target_id : String
  relation_type : RelationType
  confidence : ℚ
deriving DecidableEq

/-- Modelled from the spec: the error taxonomy of spec section 7. -/
inductive GraphError
  | duplicateNodeError
  | unknownEndpointError
  | selfLoopError
  | invalidEnumValueError
  | malformedBatchItemError
deriving DecidableEq

/-- Modelled from the spec: GraphStore of spec section 4.1 - the claim and
relation graph, append-only. -/
structure GraphStore where
  nodes : List ClaimNode
  edges : List RelationEdge
deriving DecidableEq

/-- Node-id list of a store, in insertion order. -/
def nodeIds (st : GraphStore) : List String :=
  st.nodes.map fun n => n.id

/-- Modelled from the spec: membership test backing the GraphStore invariants
(node ids unique, edge endpoints exist). -/
def GraphStore.hasNode (st : GraphStore) (nid : String) : Bool :=
  st.nodes.any fun n => decide (n.id = nid)

/-- Modelled from the spec: add_node of spec section 4.1 - fails with
DuplicateNodeError if the id is already present, otherwise appends. -/
def GraphStore.add_node (st : GraphStore) (c : ClaimNode) :
    Except GraphError GraphStore :=
  if st.hasNode c.id then Except.error GraphError.duplicateNodeError
  else Except.ok { st with nodes := st.nodes ++ [c] }

/-- Modelled from the spec: add_edge of spec section 4.1 - fails with
UnknownEndpointError if either endpoint is missing, then with SelfLoopError
if source equals target, otherwise appends; a cycle is never grounds for
rejection. -/
def GraphStore.add_edge (st : GraphStore) (e : RelationEdge) :
    Except GraphError GraphStore :=
  if st.hasNode e.source_id && st.hasNode e.target_id then
    if e.source_id = e.target_id then Except.error GraphError.selfLoopError
    else Except.ok { st with edges := st.edges ++ [e] }
  else Except.error GraphError.unknownEndpointError

/-- Modelled from the spec: a raw claim record of the per-batch input contract
(spec section 6) - claim_type arrives as an unvalidated string. -/
structure RawClaim where
  id : String
  speaker : String
  text : String
  claim_type : String
  timestamp_start : ℚ
  timestamp_end : ℚ
  confidence : ℚ
  is_factual : Bool
deriving DecidableEq

/-- Modelled from the spec: a raw relation record of the per-batch input
contract (spec section 6) - relation_type arrives as an unvalidated string. -/
structure RawRelation where
  source_id : String
  target_id : String
  relation_type : String
  confidence : ℚ
deriving DecidableEq

/-- Modelled from the spec: a claim plus relation batch handed to
ingest_batch (spec sections 4.4 and 6). -/
structure Batch where
  claims : List RawClaim
  relations : List RawRelation
deriving DecidableEq

/-- Modelled from the spec: validation of the claim_type enumeration at the
ingestion boundary (spec sections 6 and 7). -/
def parseClaimType : String → Option ClaimType
  | "premise" => some ClaimType.premise
  | "conclusion" => some ClaimType.conclusion
  | "concession" => some ClaimType.concession
  | "rebuttal" => some ClaimType.rebuttal
  | _ => Option.none

/-- Modelled from the spec: validation of the relation_type enumeration at the
ingestion boundary (spec sections 6 and 7). -/
def parseRelationType : String → Option RelationType
  | "support" => some RelationType.support
  | "attack" => some RelationType.attack
  | "undercut" => some RelationType.undercut
  | "reformulation" => some RelationType.reformulation
  | "implication" => some RelationType.implication
  | _ => Option.none

/-- Modelled from the spec: the ClaimNode built from a validated raw claim
record; fact-check data and fallacies are filled in later by collaborators
and by the analyzer. -/
def mkNode (r : RawClaim) (ct : ClaimType) : ClaimNode :=
  { id := r.id, speaker := r.speaker, text := r.text, claim_type := ct,
    timestamp_start := r.timestamp_start, timestamp_end := r.timestamp_end,
    confidence := r.confidence, is_factual := r.is_factual,
    factcheck := Option.none, fallacies := [] }

/-- Modelled from the spec: the RelationEdge built from a validated raw
relation record. -/
def mkEdge (r : RawRelation) (rt : RelationType) : RelationEdge :=
  { source_id := r.source_id, target_id := r.target_id,
    relation_type := rt, confidence := r.confidence }

/-- Modelled from the spec: the store effect of ingesting one claim record -
an invalid claim_type or a DuplicateNodeError skips the record (spec
section 7), a valid one inserts via add_node. -/
def claimStepStore (st : GraphStore) (r : RawClaim) : GraphStore :=
  match parseClaimType r.claim_type with
  | Option.none => st
  | some ct =>
    match st.add_node (mkNode r ct) with
    | Except.ok st2 => st2
    | Except.error _ => st

/-- Modelled from the spec: whether ingesting one claim record counts a skip
(spec section 7: counted and skipped, never batch-fatal). -/
def claimSkip (st : GraphStore) (r : RawClaim) : Nat :=
  match parseClaimType r.claim_type with
  | Option.none => 1
  | some ct =>
    match st.add_node (mkNode r ct) with
    | Except.ok _ => 0
    | Except.error _ => 1

/-- Modelled from the spec: the store effect of ingesting one relation record -
an invalid relation_type, UnknownEndpointError or SelfLoopError skips the
record (spec section 7), a valid one inserts via add_edge. -/
def relStepStore (st : GraphStore) (r : RawRelation) : GraphStore :=
  match parseRelationType r.relation_type with
  | Option.none => st
  | some rt =>
    match st.add_edge (mkEdge r rt) with
    | Except.ok st2 => st2
    | Except.error _ => st

/-- Modelled from the spec: whether ingesting one relation record counts a
skip. -/
def relSkip (st : GraphStore) (r : RawRelation) : Nat :=
  match parseRelationType r.relation_type with
  | Option.none => 1
  | some rt =>
    match st.add_edge (mkEdge r rt) with
    | Except.ok _ => 0
    | Except.error _ => 1

/-- Modelled from the spec: UpdateCoordinator session states (spec
section 4.4). -/
inductive CoordState
  | idle
  | accumulating
  | analyzed
  | finalized
deriving DecidableEq

/-- Modelled from the spec: the UpdateCoordinator - owns the store, counts
skipped records, tracks the session state (spec section 4.4). -/
structure Coordinator where
  store : GraphStore
  skipped : Nat
  state : CoordState
deriving DecidableEq

/-- One claim-record step at the coordinator level. -/
def stepClaim (p : GraphStore × Nat) (r : RawClaim) : GraphStore × Nat :=
  (claimStepStore p.1 r, p.2 + claimSkip p.1 r)

/-- One relation-record step at the coordinator level. -/
def stepRel (p : GraphStore × Nat) (r : RawRelation) : GraphStore × Nat :=
  (relStepStore p.1 r, p.2 + relSkip p.1 r)

/-- Modelled from the spec: ingest_batch of spec section 4.4 - validates and
inserts every claim record, then every relation record, skipping and counting
invalid items per spec section 7, and transitions to accumulating. -/
def ingest_batch (c : Coordinator) (b : Batch) : Coordinator :=
  let p1 := b.claims.foldl stepClaim (c.store, c.skipped)
  let p2 := b.relations.foldl stepRel p1
  { store := p2.1, skipped := p2.2, state := CoordState.accumulating }

/-- Store after ingesting a list of claim records. -/
def storeAfterClaims (st : GraphStore) (cs : List RawClaim) : GraphStore :=
  cs.foldl claimStepStore st

/-- Store after ingesting a whole batch (claims first, then relations). -/
def storeAfterBatch (st : GraphStore) (b : Batch) : GraphStore :=
  b.relations.foldl relStepStore (storeAfterClaims st b.claims)

/-- Modelled from the spec: the union of a batch sequence, claims in order and
relations in order (spec section 8 batch/incremental equivalence). -/
def batchAppend (b1 b2 : Batch) : Batch :=
  { claims := b1.claims ++ b2.claims, relations := b1.relations ++ b2.relations }

/-- The merged batch B1 ++ ... ++ Bn. -/
def mergeBatches (bs : List Batch) : Batch :=
  bs.foldr batchAppend { claims := [], relations := [] }

/-- The node-list effect of one claim record, as a function of the node list
alone (claim ingestion never reads or writes edges). -/
def nodesStep (nodes : List ClaimNode) (r : RawClaim) : List ClaimNode :=
  match parseClaimType r.claim_type with
  | Option.none => nodes
  | some ct =>
    if nodes.any fun n => decide (n.id = r.id) then nodes
    else nodes ++ [mkNode r ct]

/-- The accepted edge of one relation record against a fixed node list:
valid relation_type, both endpoints present, no self-loop. -/
def acceptRel (nodes : List ClaimNode) (r : RawRelation) : Option RelationEdge :=
  match parseRelationType r.relation_type with
  | Option.none => Option.none
  | some rt =>
    if (nodes.any fun n => decide (n.id = r.source_id)) &&
       (nodes.any fun n => decide (n.id = r.target_id)) then
      if r.source_id = r.target_id then Option.none
      else some (mkEdge r rt)
    else Option.none

/-- Whether a raw relation has a valid relation_type and distinct endpoints
(the shape under which only endpoint existence decides acceptance). -/
def relShapeOk (r : RawRelation) : Bool :=
  (parseRelationType r.relation_type).isSome && !(decide (r.source_id = r.target_id))

/-- Every relation of the batch that could be inserted at all already has both
endpoints present once the claims of this batch are in: the no-forward-
reference condition under which incremental and merged ingestion agree. -/
def batchRelsOk (st : GraphStore) (b : Batch) : Bool :=
  b.relations.all fun r =>
    if relShapeOk r then
      (storeAfterClaims st b.claims).hasNode r.source_id &&
      (storeAfterClaims st b.claims).hasNode r.target_id
    else true

/-- batchRelsOk down a batch sequence. -/
def fwdOkB (st : GraphStore) : List Batch → Bool
  | [] => true
  | b :: rest => batchRelsOk st b && fwdOkB (storeAfterBatch st b) rest

/-- Bag-of-words tokenizer: splitting on spaces (spec section 4.2 strawman
detection computes a bag-of-words cosine similarity over claim text). -/
def splitWordsAux : List Char → List Char → List String
  | [], acc => if acc.isEmpty then [] else [String.mk acc.reverse]
  | c :: cs, acc =>
    if c = ' ' then
      if acc.isEmpty then splitWordsAux cs []
      else String.mk acc.reverse :: splitWordsAux cs []
    else splitWordsAux cs (c :: acc)

/-- Words of a claim text. -/
def tokenize (s : String) : List String :=
  splitWordsAux s.toList []

/-- Occurrences of a word in a token list. -/
def countOccs (w : String) (ws : List String) : Nat :=
  ws.countP fun x => decide (x = w)

/-- Dot product of the two bag-of-words count vectors. -/
def dotProd (u v : List String) : Nat :=
  u.dedup.foldr (fun w acc => countOccs w u * countOccs w v + acc) 0

/-- Squared Euclidean norm of a bag-of-words count vector. -/
def normSq (u : List String) : Nat :=
  u.dedup.foldr (fun w acc => countOccs w u * countOccs w u + acc) 0

/-- Modelled from the spec: the comparison cosine(a, b) < threshold in exact
rational arithmetic (cosine = dot / sqrt(normSq a * normSq b), nonnegative,
so for a positive threshold the comparison squares both sides; a zero vector
is given similarity 0).  The backend sources computing the similarity are not
in the repository snapshot. -/
def simLtThreshold (t : ℚ) (a b : String) : Bool :=
  if t ≤ 0 then false
  else
    let u := tokenize a
    let v := tokenize b
    let d := dotProd u v
    let nu := normSq u
    let nv := normSq v
    if nu = 0 || nv = 0 then true
    else decide (((d : ℚ)) * ((d : ℚ)) < t * t * ((nu : ℚ)) * ((nv : ℚ)))

/-- STRAWMAN_SIMILARITY_THRESHOLD default 0.75, from the configuration in the
design document (src/unnamed/part_000). -/
def strawmanSimilarityThresholdDefault : ℚ := 3 / 4

/-- Explanation template of the structural strawman flag. -/
def strawmanExplanationText : String :=
  "The attack shows low textual overlap with the claim it targets."

/-- Socratic question template of the structural strawman flag. -/
def strawmanQuestionText : String :=
  "Does this attack address what the original claim actually said?"

/-- Modelled from the spec: the strawman fallacy record - severity 0.5,
attached to the attacking claim, related_claim_ids the attacked claim (spec
section 4.2). -/
def mkStrawmanAnn (src tgt : String) : FallacyAnn :=
  { claim_id := src, fallacy_type := FallacyType.strawman, severity := 1 / 2,
    explanation := strawmanExplanationText,
    socratic_question := strawmanQuestionText,
    related_claim_ids := [tgt],
    detection_method := DetectionMethod.structural }

/-- Modelled from the spec: strawman-candidate detection on one edge (spec
section 4.2) - an attack edge between claims of different speakers is flagged
exactly when the similarity of the two texts falls below the threshold. -/
def strawmanFlag (t : ℚ) (nodes : List ClaimNode) (e : RelationEdge) :
    Option FallacyAnn :=
  if e.relation_type = RelationType.attack then
    match nodes.find? (fun n => decide (n.id = e.source_id)),
          nodes.find? (fun n => decide (n.id = e.target_id)) with
    | some src, some tgt =>
      if src.speaker = tgt.speaker then Option.none
      else if simLtThreshold t src.text tgt.text then
        some (mkStrawmanAnn e.source_id e.target_id)
      else Option.none
    | _, _ => Option.none
  else Option.none

/-- Successor ids of a node along directed edges (all edge types participate
in cycle detection, spec section 4.2). -/
def succIds (edges : List RelationEdge) (x : String) : List String :=
  (edges.filter fun e => decide (e.source_id = x)).map fun e => e.target_id

/-- Position of an id in the node-id list (length when absent). -/
def idIndex : List String → String → Nat
  | [], _ => 0
  | y :: ys, x => if y = x then 0 else idIndex ys x + 1

/-- Modelled from the spec: depth-first enumeration of the elementary cycles
through a start node, visiting only nodes of larger index so that each
elementary cycle is reported exactly once, rooted at its smallest-index
member (spec section 4.2, equivalent to the Johnson-style enumeration). -/
def cycleDfs (succ : String → List String) (ids : List String) (start : String) :
    Nat → List String → String → List (List String)
  | 0, _, _ => []
  | Nat.succ fuel, path, cur =>
    (succ cur).foldr
      (fun nxt acc =>
        if nxt = start then path :: acc
        else if idIndex ids nxt ≤ idIndex ids start then acc
        else if path.contains nxt then acc
        else cycleDfs succ ids start fuel (path ++ [nxt]) nxt ++ acc)
      []

/-- Modelled from the spec: all elementary cycles of the directed graph, each
as the ordered id sequence starting at its smallest-index node. -/
def elementaryCycles (st : GraphStore) : List (List String) :=
  (nodeIds st).foldr
    (fun s acc =>
      cycleDfs (succIds st.edges) (nodeIds st) s (st.nodes.length + 1) [s] s ++ acc)
    []

/-- Explanation template of the circular-reasoning flag. -/
def circularExplanationText : String :=
  "These claims support each other in a closed chain."

/-- Socratic question template of the circular-reasoning flag. -/
def circularQuestionText : String :=
  "Which claim in this chain rests on independent support?"

/-- Modelled from the spec: the circular-reasoning fallacy record - severity
0.7 on the first node of the cycle, related_claim_ids the remaining members
(spec section 4.2). -/
def mkCircularAnn (first : String) (rest : List String) : FallacyAnn :=
  { claim_id := first, fallacy_type := FallacyType.circular_reasoning,
    severity := 7 / 10, explanation := circularExplanationText,
    socratic_question := circularQuestionText, related_claim_ids := rest,
    detection_method := DetectionMethod.structural }

/-- The circular-reasoning record of one reported cycle. -/
def circularFromCycle : List String → Option FallacyAnn
  | [] => Option.none
  | c1 :: rest => some (mkCircularAnn c1 rest)

/-- Insertion step of the chronological sort. -/
def insertByStart (n : ClaimNode) : List ClaimNode → List ClaimNode
  | [] => [n]
  | m :: ms =>
    if n.timestamp_start ≤ m.timestamp_start then n :: m :: ms
    else m :: insertByStart n ms

/-- Chronological sort of claims by timestamp_start. -/
def sortByStart (l : List ClaimNode) : List ClaimNode :=
  l.foldr insertByStart []

/-- Explanation template of the goal-post-moving flag. -/
def goalpostExplanationText : String :=
  "The claim was challenged and later restated without a concession."

/-- Socratic question template of the goal-post-moving flag. -/
def goalpostQuestionText : String :=
  "Has the original claim been defended or quietly replaced?"

/-- Modelled from the spec: the goal-post-moving fallacy record - severity 0.6
(spec section 4.2). -/
def mkGoalpostAnn (cid : String) (related : List String) : FallacyAnn :=
  { claim_id := cid, fallacy_type := FallacyType.goal_post_moving,
    severity := 3 / 5, explanation := goalpostExplanationText,
    socratic_question := goalpostQuestionText, related_claim_ids := related,
    detection_method := DetectionMethod.structural }

/-- Modelled from the spec: goal-post-moving detection on one claim (spec
section 4.2) - a claim attacked by a different speaker whose speaker makes no
later concession is flagged, related to the attackers plus up to 3 of the
speaker's subsequent claims in chronological order. -/
def goalpostFlag (nodes : List ClaimNode) (edges : List RelationEdge)
    (c : ClaimNode) : Option FallacyAnn :=
  let attackers :=
    ((edges.filter fun e =>
        decide (e.target_id = c.id) &&
        decide (e.relation_type = RelationType.attack)).filterMap
      fun e => nodes.find? fun n => decide (n.id = e.source_id)).filter
      fun a => !(decide (a.speaker = c.speaker))
  if attackers.isEmpty then Option.none
  else
    let later := nodes.filter fun n =>
      decide (n.speaker = c.speaker) &&
      decide (c.timestamp_start < n.timestamp_start)
    if later.any fun n => decide (n.claim_type = ClaimType.concession) then
      Option.none
    else
      some (mkGoalpostAnn c.id
        ((attackers.map fun a => a.id) ++
         (((sortByStart later).take 3).map fun n => n.id)))

/-- A claim stripped of its accumulated fallacy records: the projection of the
graph the structural detectors read (spec section 4.2: detectors only append
fallacy records, none reads them). -/
def stripNode (n : ClaimNode) : ClaimNode :=
  { n with fallacies := [] }

/-- The analyzer's read-only view of the store: claim cores plus edges. -/
def GraphStore.core (st : GraphStore) : GraphStore :=
  { nodes := st.nodes.map stripNode, edges := st.edges }

/-- Modelled from the spec: the combined output of the structural detectors
over the analyzer's view of a graph (cycle, strawman and goal-post-moving
detection; topic drift produces metadata only and no fallacy record). -/
def detectorCore (g : GraphStore) : List FallacyAnn :=
  (elementaryCycles g).filterMap circularFromCycle ++
  g.edges.filterMap (strawmanFlag strawmanSimilarityThresholdDefault g.nodes) ++
  g.nodes.filterMap (goalpostFlag g.nodes g.edges)

/-- Detector output of one analysis pass over a store. -/
def detectorAnns (st : GraphStore) : List FallacyAnn :=
  detectorCore st.core

/-- The cycles_detected list of one analysis pass. -/
def cyclesOf (st : GraphStore) : List (List String) :=
  elementaryCycles st.core

/-- Equality on the (claim_id, fallacy_type, detection_method) tuple that the
idempotence invariant of spec section 3 keys on. -/
def sameTuple (f a : FallacyAnn) : Bool :=
  decide (f.claim_id = a.claim_id) && decide (f.fallacy_type = a.fallacy_type) &&
  decide (f.detection_method = a.detection_method)

/-- Whether a claim already carries a fallacy record with the same
(claim_id, fallacy_type, detection_method) tuple. -/
def nodeHasTuple (n : ClaimNode) (a : FallacyAnn) : Bool :=
  n.fallacies.any fun f => sameTuple f a

/-- Modelled from the spec: appending one fallacy record to its claim, after
the mandatory check for an existing identical annotation tuple (spec
sections 3 and 4.2). -/
def applyAnn (st : GraphStore) (a : FallacyAnn) : GraphStore :=
  { st with
    nodes := st.nodes.map fun n =>
      if decide (n.id = a.claim_id) && !(nodeHasTuple n a) then
        { n with fallacies := n.fallacies ++ [a] }
      else n }

/-- Appending a list of fallacy records in order. -/
def applyAnns (st : GraphStore) (l : List FallacyAnn) : GraphStore :=
  l.foldl applyAnn st

/-- Modelled from the spec: one StructuralAnalyzer pass - run the detectors on
the current graph and append their records, deduplicated by tuple. -/
def runAnalyzer (st : GraphStore) : GraphStore :=
  applyAnns st (detectorAnns st)

/-- Division with the 0/0 = 0 convention used for the score ratios. -/
def qdiv0 (a b : ℚ) : ℚ :=
  if b = 0 then 0 else a / b

/-- Sum of a list of rationals. -/
def qsum (l : List ℚ) : ℚ :=
  l.foldr (fun a acc => a + acc) 0

/-- Modelled from the spec: the weight a fact-check verdict contributes to
supported_ratio - supported counts 1, partially_true counts at partial weight
1/2 (spec section 4.3). -/
def supportWeight (n : ClaimNode) : ℚ :=
  match n.factcheck with
  | Option.none => 0
  | some fc =>
    match fc.verdict with
    | FactCheckVerdict.supported => 1
    | FactCheckVerdict.partially_true => 1 / 2
    | _ => 0

/-- Modelled from the spec: a non-negative fact-check verdict (spec
section 4.3 factcheck_positive_rate). -/
def isPositiveVerdict (n : ClaimNode) : Bool :=
  match n.factcheck with
  | Option.none => false
  | some fc =>
    decide (fc.verdict = FactCheckVerdict.supported) ||
    decide (fc.verdict = FactCheckVerdict.partially_true)

/-- SpeakerRigorScore record, from types.ts lines 96-105. -/
structure SpeakerRigorScore where
  speaker : String
  overall_score : ℚ
  supported_ratio : ℚ
  fallacy_count : Nat
  fallacy_penalty : ℚ
  factcheck_positive_rate : ℚ
  internal_consistency : ℚ
  direct_response_rate : ℚ
deriving DecidableEq

/-- Modelled from the spec: whether one of the speaker's claims is connected
to another of the same speaker's claims by an attack edge (spec section 4.3
internal_consistency). -/
def attackLinksOwn (st : GraphStore) (mine : List ClaimNode) (n : ClaimNode) :
    Bool :=
  st.edges.any fun e =>
    decide (e.relation_type = RelationType.attack) &&
    ((decide (e.source_id = n.id) &&
        (mine.any fun m => decide (m.id = e.target_id)) &&
        !(decide (e.target_id = n.id))) ||
     (decide (e.target_id = n.id) &&
        (mine.any fun m => decide (m.id = e.source_id)) &&
        !(decide (e.source_id = n.id))))

/-- Modelled from the spec: an opposing-speaker attack or undercut edge
targeting one of the speaker's claims (spec section 4.3
direct_response_rate). -/
def isChallenge (st : GraphStore) (s : String) (mine : List ClaimNode)
    (e : RelationEdge) : Bool :=
  (decide (e.relation_type = RelationType.attack) ||
   decide (e.relation_type = RelationType.undercut)) &&
  (mine.any fun m => decide (m.id = e.target_id)) &&
  (match st.nodes.find? fun n => decide (n.id = e.source_id) with
   | Option.none => false
   | some att => !(decide (att.speaker = s)))

/-- Modelled from the spec: whether a challenge is answered - a later claim of
the challenged speaker linked by an edge to the attacking claim, or a later
concession (spec section 4.3 direct_response_rate heuristic). -/
def answeredChallenge (st : GraphStore) (mine : List ClaimNode)
    (e : RelationEdge) : Bool :=
  match st.nodes.find? fun n => decide (n.id = e.source_id) with
  | Option.none => false
  | some att =>
    mine.any fun c =>
      decide (att.timestamp_start < c.timestamp_start) &&
      ((st.edges.any fun e2 =>
          (decide (e2.source_id = c.id) && decide (e2.target_id = att.id)) ||
          (decide (e2.target_id = c.id) && decide (e2.source_id = att.id))) ||
       decide (c.claim_type = ClaimType.concession))

/-- Modelled from the spec: the per-speaker composite rigor score of spec
section 4.3, with the weighting 0.25/0.25/0.20/0.15/0.15 documented in the
repository testing report (TESTING_REPORT.md, Test 09), where the fallacy
component enters as 1 - fallacy_penalty. -/
def speakerScore (st : GraphStore) (s : String) : SpeakerRigorScore :=
  let mine := st.nodes.filter fun n => decide (n.speaker = s)
  let factual := mine.filter fun n => n.is_factual
  let supported_ratio :=
    qdiv0 (qsum (factual.map supportWeight)) ((factual.length : ℚ))
  let fallacy_count := (mine.map fun n => n.fallacies.length).foldr (· + ·) 0
  let sev := qsum (mine.map fun n => qsum (n.fallacies.map fun f => f.severity))
  let fallacy_penalty := min 1 (qdiv0 sev ((mine.length : ℚ)))
  let factcheck_positive_rate :=
    qdiv0 (((factual.filter isPositiveVerdict).length : ℚ)) ((factual.length : ℚ))
  let inconsistent := mine.filter (attackLinksOwn st mine)
  let internal_consistency :=
    1 - qdiv0 ((inconsistent.length : ℚ)) ((mine.length : ℚ))
  let challenges := st.edges.filter (isChallenge st s mine)
  let answered := challenges.filter (answeredChallenge st mine)
  let direct_response_rate :=
    qdiv0 ((answered.length : ℚ)) ((challenges.length : ℚ))
  { speaker := s,
    overall_score :=
      1 / 4 * supported_ratio + 1 / 4 * (1 - fallacy_penalty) +
      1 / 5 * factcheck_positive_rate + 3 / 20 * internal_consistency +
      3 / 20 * direct_response_rate,
    supported_ratio := supported_ratio,
    fallacy_count := fallacy_count,
    fallacy_penalty := fallacy_penalty,
    factcheck_positive_rate := factcheck_positive_rate,
    internal_consistency := internal_consistency,
    direct_response_rate := direct_response_rate }

/-- The distinct speakers of the graph, in first-appearance order. -/
def speakersOf (st : GraphStore) : List String :=
  (st.nodes.map fun n => n.speaker).dedup

/-- Modelled from the spec: RigorScorer - one SpeakerRigorScore per distinct
speaker, a pure function of graph plus accumulated fallacy records (spec
sections 3 and 4.3). -/
def rigorScores (st : GraphStore) : List SpeakerRigorScore :=
  (speakersOf st).map (speakerScore st)

/-- GraphSnapshot record, from types.ts lines 107-112. -/
structure GraphSnapshot where
  nodes : List ClaimNode
  edges : List RelationEdge
  rigor_scores : List SpeakerRigorScore
  cycles_detected : List (List String)
deriving DecidableEq

/-- The snapshot emitted after an analysis pass over a store. -/
def snapFromStore (st : GraphStore) : GraphSnapshot :=
  { nodes := st.nodes, edges := st.edges, rigor_scores := rigorScores st,
    cycles_detected := cyclesOf st }

/-- Modelled from the spec: analyze() of spec section 4.4 - runs
StructuralAnalyzer then RigorScorer as a full recompute over the current
graph and emits the snapshot. -/
def analyzeStep (c : Coordinator) : Coordinator × GraphSnapshot :=
  let st2 := runAnalyzer c.store
  ({ store := st2, skipped := c.skipped, state := CoordState.analyzed },
   snapFromStore st2)

/-- The Cytoscape element id of an edge: source-id, a dash, target-id
(GraphView.tsx lines 332 and 692). -/
def edgeKey (e : RelationEdge) : String :=
  e.source_id ++ "-" ++ e.target_id

/-- The edge elements of the GraphView rendering pass: ids keyed by edgeKey,
inserted into the id-keyed Cytoscape collection, an id that is already present
contributing no second element (GraphView.tsx lines 331-347). -/
def addEdgeElements (acc : List String) (edges : List RelationEdge) :
    List String :=
  edges.foldl (fun a e => if edgeKey e ∈ a then a else a ++ [edgeKey e]) acc

/-- The visible node ids of the GraphView timestamp filter: nodes whose
timestamp_start is at most maxTimestamp (GraphView.tsx lines 380-385). -/
def visibleNodeIds (g : GraphSnapshot) (maxT : ℚ) : List String :=
  (g.nodes.filter fun n => decide (n.timestamp_start ≤ maxT)).map fun n => n.id

/-- Node visibility toggle of the GraphView timestamp filter (GraphView.tsx
lines 388-390). -/
def nodeDisplayed (g : GraphSnapshot) (maxT : ℚ) (nid : String) : Bool :=
  (visibleNodeIds g maxT).any fun x => decide (x = nid)

/-- Edge visibility toggle of the GraphView timestamp filter - both endpoints
must be visible (GraphView.tsx lines 393-397). -/
def edgeDisplayed (g : GraphSnapshot) (maxT : ℚ) (e : RelationEdge) : Bool :=
  nodeDisplayed g maxT e.source_id && nodeDisplayed g maxT e.target_id

/-- The empty store. -/
def emptyStore : GraphStore :=
  { nodes := [], edges := [] }

/-- A fresh coordinator session. -/
def c0Empty : Coordinator :=
  { store := emptyStore, skipped := 0, state := CoordState.idle }

/-- Helper building a bare claim for the concrete test graphs. -/
def mkClaimNode (nid spk txt : String) (ct : ClaimType) (ts : ℚ) : ClaimNode :=
  { id := nid, speaker := spk, text := txt, claim_type := ct,
    timestamp_start := ts, timestamp_end := ts, confidence := 1,
    is_factual := false, factcheck := Option.none, fallacies := [] }

/-- Raw claim record a, used by the batch-equivalence instances. -/
def rawClaimA : RawClaim :=
  { id := "a", speaker := "X", text := "alpha", claim_type := "premise",
    timestamp_start := 0, timestamp_end := 1, confidence := 1,
    is_factual := false }

/-- Raw claim record b, used by the batch-equivalence instances. -/
def rawClaimB : RawClaim :=
  { id := "b", speaker := "Y", text := "beta", claim_type := "premise",
    timestamp_start := 1, timestamp_end := 2, confidence := 1,
    is_factual := false }

/-- Raw relation a supports b, used by the batch-equivalence instances. -/
def rawRelAB : RawRelation :=
  { source_id := "a", target_id := "b", relation_type := "support",
    confidence := 1 }

/-- A batch holding only the relation a supports b: its endpoints live in a
later batch. -/
def batchRelOnly : Batch :=
  { claims := [], relations := [rawRelAB] }

/-- A batch holding only the claims a and b. -/
def batchClaimsOnly : Batch :=
  { claims := [rawClaimA, rawClaimB], relations := [] }

/-- First well-ordered batch: claim a alone. -/
def batchW1 : Batch :=
  { claims := [rawClaimA], relations := [] }

/-- Second well-ordered batch: claim b and the relation a supports b. -/
def batchW2 : Batch :=
  { claims := [rawClaimB], relations := [rawRelAB] }

/-- A raw claim with a claim_type outside the enumerated set. -/
def rawClaimBadType : RawClaim :=
  { id := "z", speaker := "X", text := "zeta", claim_type := "assertion",
    timestamp_start := 2, timestamp_end := 3, confidence := 1,
    is_factual := false }

/-- A raw relation whose relation_type is the claim-type value conclusion. -/
def rawRelBadType : RawRelation :=
  { source_id := "a", target_id := "b", relation_type := "conclusion",
    confidence := 1 }

/-- A one-speaker one-claim store, used by the rigor-score instances. -/
def storeOneClaim : GraphStore :=
  { nodes := [mkClaimNode "a" "A" "talk" ClaimType.premise 0], edges := [] }

/-- A two-node store with no edges, used by the add_edge instances. -/
def storeTwoNodes : GraphStore :=
  { nodes := [mkClaimNode "a" "A" "one" ClaimType.premise 0,
              mkClaimNode "b" "B" "two" ClaimType.premise 1],
    edges := [] }

/-- A support edge from a to b. -/
def edgeAB : RelationEdge :=
  { source_id := "a", target_id := "b", relation_type := RelationType.support,
    confidence := 1 }

/-- An attack edge from a to b, parallel to edgeAB. -/
def edgeABAttack : RelationEdge :=
  { source_id := "a", target_id := "b", relation_type := RelationType.attack,
    confidence := 1 }

/-- The self-loop edge on a. -/
def edgeAA : RelationEdge :=
  { source_id := "a", target_id := "a", relation_type := RelationType.support,
    confidence := 1 }

/-- The planted 3-cycle store of spec section 8: c1, c2, c3 with support edges
c1 to c2, c2 to c3, c3 to c1. -/
def plantedStore : GraphStore :=
  { nodes := [mkClaimNode "c1" "X" "one" ClaimType.premise 0,
              mkClaimNode "c2" "X" "two" ClaimType.premise 1,
              mkClaimNode "c3" "X" "three" ClaimType.premise 2],
    edges := [{ source_id := "c1", target_id := "c2",
                relation_type := RelationType.support, confidence := 1 },
              { source_id := "c2", target_id := "c3",
                relation_type := RelationType.support, confidence := 1 },
              { source_id := "c3", target_id := "c1",
                relation_type := RelationType.support, confidence := 1 }] }

/-- The coordinator holding the planted 3-cycle. -/
def plantedCoord : Coordinator :=
  { store := plantedStore, skipped := 0, state := CoordState.accumulating }

/-- The attacked claim of the spec section 8 strawman instance. -/
def strawTgtNode : ClaimNode :=
  mkClaimNode "ca" "A" "we will cut the deficit by reducing subsidies"
    ClaimType.premise 0

/-- The attacking claim of the spec section 8 strawman instance. -/
def strawSrcNode : ClaimNode :=
  mkClaimNode "cb" "B" "my opponent wants to bankrupt retirees"
    ClaimType.premise 1

/-- The cross-speaker attack edge of the strawman instance. -/
def strawEdge : RelationEdge :=
  { source_id := "cb", target_id := "ca",
    relation_type := RelationType.attack, confidence := 1 }

/-- The node list of the strawman instance. -/
def strawNodes : List ClaimNode :=
  [strawTgtNode, strawSrcNode]

/-- The snapshot used by the timestamp-filter instances: node a at 0, node b
at 5, one edge between them. -/
def snapFilter : GraphSnapshot :=
  { nodes := [mkClaimNode "a" "A" "one" ClaimType.premise 0,
              mkClaimNode "b" "A" "two" ClaimType.premise 5],
    edges := [edgeAB], rigor_scores := [], cycles_detected := [] }

/-- Skips accumulated while ingesting a claim list. -/
def skipsClaims (st : GraphStore) : List RawClaim → Nat
  | [] => 0
  | r :: rs => claimSkip st r + skipsClaims (claimStepStore st r) rs

/-- Skips accumulated while ingesting a relation list. -/
def skipsRels (st : GraphStore) : List RawRelation → Nat
  | [] => 0
  | r :: rs => relSkip st r + skipsRels (relStepStore st r) rs

/-- Store after ingesting a relation list. -/
def storeAfterRels (st : GraphStore) (rs : List RawRelation) : GraphStore :=
  rs.foldl relStepStore st

theorem hasNode_iff (st : GraphStore) (x : String) :
    st.hasNode x = true ↔ x ∈ nodeIds st := by
  simp [GraphStore.hasNode, nodeIds, List.any_eq_true, List.mem_map]

/-- C8 counterexample: the FallacyAnnotation interface of types.ts has no
detection_method field. -/
theorem c8_counterexample : "detection_method" ∉ fallacyAnnFieldsTS := by
  decide

/-- C8 (amended): every FallacyAnnotation of the frontend contract carries
exactly claim_id, fallacy_type, severity, explanation, socratic_question and
related_claim_ids, and no detection_method field. -/
theorem c8_fields :
    fallacyAnnFieldsTS =
      ["claim_id", "fallacy_type", "severity", "explanation",
       "socratic_question", "related_claim_ids"] ∧
    "detection_method" ∉ fallacyAnnFieldsTS :=
  ⟨rfl, by decide⟩

/-- C4 counterexample: on the self-loop edge over an empty store add_edge
fails with UnknownEndpointError, so SelfLoopError does not occur exactly when
source equals target. -/
theorem c4_counterexample :
    ¬ ((emptyStore.add_edge edgeAA = Except.error GraphError.selfLoopError) ↔
        edgeAA.source_id = edgeAA.target_id) := by
  intro h
  have h2 := h.mpr rfl
  simp [emptyStore, GraphStore.add_edge, GraphStore.hasNode, edgeAA] at h2

/-- C4 (amended): add_edge fails with UnknownEndpointError exactly when an
endpoint is absent, fails with SelfLoopError exactly when both endpoints are
present and source equals target (the endpoint check takes priority), and
otherwise inserts the edge - in particular an edge closing a directed cycle
is never rejected. -/
theorem c4_add_edge_errors (st : GraphStore) (e : RelationEdge) :
    ((st.add_edge e = Except.error GraphError.unknownEndpointError) ↔
      (e.source_id ∉ nodeIds st ∨ e.target_id ∉ nodeIds st)) ∧
    ((st.add_edge e = Except.error GraphError.selfLoopError) ↔
      (e.source_id ∈ nodeIds st ∧ e.target_id ∈ nodeIds st ∧
       e.source_id = e.target_id)) ∧
    (e.source_id ∈ nodeIds st → e.target_id ∈ nodeIds st →
      e.source_id ≠ e.target_id →
      st.add_edge e = Except.ok { st with edges := st.edges ++ [e] }) := by
  unfold GraphStore.add_edge
  by_cases h1 : st.hasNode e.source_id = true
  · by_cases h2 : st.hasNode e.target_id = true
    · by_cases h3 : e.source_id = e.target_id
      · simp [h1, h2, h3, hasNode_iff st e.source_id |>.mp h1,
          hasNode_iff st e.target_id |>.mp h2]
      · simp [h1, h2, h3, hasNode_iff st e.source_id |>.mp h1,
          hasNode_iff st e.target_id |>.mp h2]
    · have h2m : e.target_id ∉ nodeIds st := fun hm =>
        h2 ((hasNode_iff st e.target_id).mpr hm)
      simp [h1, h2, h2m]
  · have h1m : e.source_id ∉ nodeIds st := fun hm =>
      h1 ((hasNode_iff st e.source_id).mpr hm)
    simp [h1, h1m]

/-- C4 witness: on a two-node store the edge a to b is inserted. -/
theorem c4_witness :
    storeTwoNodes.add_edge edgeAB =
      Except.ok { storeTwoNodes with edges := storeTwoNodes.edges ++ [edgeAB] } :=
  (c4_add_edge_errors storeTwoNodes edgeAB).2.2 (by decide) (by decide)
    (by decide)

theorem addEdgeElements_nodup (edges : List RelationEdge) :
    ∀ acc : List String, acc.Nodup → (addEdgeElements acc edges).Nodup := by
  induction edges with
  | nil => intro acc h; simpa [addEdgeElements] using h
  | cons e es ih =>
    intro acc h
    simp only [addEdgeElements, List.foldl_cons]
    by_cases hk : edgeKey e ∈ acc
    · simpa [addEdgeElements, hk] using ih acc h
    · have : (acc ++ [edgeKey e]).Nodup := by
        simp [List.nodup_append, h, hk]
      simpa [addEdgeElements, hk] using ih (acc ++ [edgeKey e]) this

theorem mem_addEdgeElements (edges : List RelationEdge) :
    ∀ (acc : List String) (k : String),
      k ∈ addEdgeElements acc edges ↔ k ∈ acc ∨ ∃ e ∈ edges, edgeKey e = k := by
  induction edges with
  | nil => intro acc k; simp [addEdgeElements]
  | cons e es ih =>
    intro acc k
    simp only [addEdgeElements, List.foldl_cons]
    by_cases hk : edgeKey e ∈ acc
    · rw [if_pos hk]
      rw [show es.foldl (fun a e => if edgeKey e ∈ a then a else a ++ [edgeKey e]) acc
            = addEdgeElements acc es from rfl, ih acc k]
      constructor
      · rintro (h | h)
        · exact Or.inl h
        · exact Or.inr ⟨h.choose, List.mem_cons_of_mem _ h.choose_spec.1, h.choose_spec.2⟩
      · rintro (h | ⟨f, hf, hfk⟩)
        · exact Or.inl h
        · rcases List.mem_cons.mp hf with rfl | hf2
          · exact Or.inl (hfk ▸ hk)
          · exact Or.inr ⟨f, hf2, hfk⟩
    · rw [if_neg hk]
      rw [show es.foldl (fun a e => if edgeKey e ∈ a then a else a ++ [edgeKey e])
            (acc ++ [edgeKey e]) = addEdgeElements (acc ++ [edgeKey e]) es from rfl,
        ih (acc ++ [edgeKey e]) k]
      constructor
      · rintro (h | h)
        · rcases List.mem_append.mp h with h2 | h2
          · exact Or.inl h2
          · exact Or.inr ⟨e, List.mem_cons_self e es, (List.mem_singleton.mp h2).symm⟩
        · exact Or.inr ⟨h.choose, List.mem_cons_of_mem _ h.choose_spec.1, h.choose_spec.2⟩
      · rintro (h | ⟨f, hf, hfk⟩)
        · exact Or.inl (List.mem_append.mpr (Or.inl h))
        · rcases List.mem_cons.mp hf with rfl | hf2
          · exact Or.inl (List.mem_append.mpr (Or.inr (List.mem_singleton.mpr hfk.symm)))
          · exact Or.inr ⟨f, hf2, hfk⟩

/-- C9: in the GraphView rendering pass every edge element is keyed by
source-id, a dash, target-id, so two snapshot edges with the same source and
target - whatever their relation_type - produce exactly one edge element. -/
theorem c9_parallel_edges_collapse (edges : List RelationEdge)
    (e1 e2 : RelationEdge) (h1 : e1 ∈ edges) (h2 : e2 ∈ edges)
    (hs : e1.source_id = e2.source_id) (ht : e1.target_id = e2.target_id) :
    (addEdgeElements [] edges).count (edgeKey e1) = 1 ∧
    edgeKey e1 = edgeKey e2 := by
  refine ⟨?_, by simp [edgeKey, hs, ht]⟩
  have hmem : edgeKey e1 ∈ addEdgeElements [] edges :=
    (mem_addEdgeElements edges [] (edgeKey e1)).mpr
      (Or.inr ⟨e1, h1, rfl⟩)
  exact List.count_eq_one_of_mem (addEdgeElements_nodup edges [] List.nodup_nil) hmem

/-- C9 witness: the parallel support and attack edges from a to b render as a
single element. -/
theorem c9_witness :
    (addEdgeElements [] [edgeAB, edgeABAttack]).count (edgeKey edgeAB) = 1 ∧
    edgeKey edgeAB = edgeKey edgeABAttack :=
  c9_parallel_edges_collapse [edgeAB, edgeABAttack] edgeAB edgeABAttack
    (by decide) (by decide) (by decide) (by decide)

theorem nodeDisplayed_iff (g : GraphSnapshot) (maxT : ℚ) (nid : String) :
    nodeDisplayed g maxT nid = true ↔
      ∃ n ∈ g.nodes, n.id = nid ∧ n.timestamp_start ≤ maxT := by
  simp only [nodeDisplayed, visibleNodeIds, List.any_eq_true, List.mem_map,
    List.mem_filter, decide_eq_true_eq]
  constructor
  · rintro ⟨x, ⟨n, ⟨hn, hts⟩, rfl⟩, hx⟩
    exact ⟨n, hn, hx, hts⟩
  · rintro ⟨n, hn, hid, hts⟩
    exact ⟨n.id, ⟨n, ⟨hn, hts⟩, rfl⟩, hid⟩

/-- C10: under a non-null maxTimestamp the GraphView filter displays a node
exactly when its timestamp_start is at most maxTimestamp (node ids being
unique), and displays an edge exactly when both endpoint nodes are displayed,
so no displayed edge has a hidden endpoint. -/
theorem c10_timestamp_filter (g : GraphSnapshot) (maxT : ℚ)
    (hnodup : (g.nodes.map fun n => n.id).Nodup) :
    (∀ n ∈ g.nodes,
      (nodeDisplayed g maxT n.id = true ↔ n.timestamp_start ≤ maxT)) ∧
    (∀ e : RelationEdge,
      (edgeDisplayed g maxT e = true ↔
        nodeDisplayed g maxT e.source_id = true ∧
        nodeDisplayed g maxT e.target_id = true)) := by
  constructor
  · intro n hn
    rw [nodeDisplayed_iff]
    constructor
    · rintro ⟨m, hm, hid, hts⟩
      have : m = n := List.inj_on_of_nodup_map hnodup hm hn hid
      exact this ▸ hts
    · intro hts
      exact ⟨n, hn, rfl, hts⟩
  · intro e
    simp [edgeDisplayed, Bool.and_eq_true]

/-- C10 witness: with maxTimestamp 3 the node starting at 0 is displayed and
the edge toward the node starting at 5 is hidden with its endpoint. -/
theorem c10_witness :
    ((nodeDisplayed snapFilter 3 (mkClaimNode "a" "A" "one" ClaimType.premise 0).id = true ↔
        (mkClaimNode "a" "A" "one" ClaimType.premise 0).timestamp_start ≤ 3) ∧
     (edgeDisplayed snapFilter 3 edgeAB = true ↔
        nodeDisplayed snapFilter 3 edgeAB.source_id = true ∧
        nodeDisplayed snapFilter 3 edgeAB.target_id = true)) :=
  ⟨(c10_timestamp_filter snapFilter 3 (by decide)).1 _ (by decide),
   (c10_timestamp_filter snapFilter 3 (by decide)).2 edgeAB⟩

theorem foldl_stepClaim_eq (cs : List RawClaim) :
    ∀ (st : GraphStore) (k : Nat),
      cs.foldl stepClaim (st, k) = (storeAfterClaims st cs, k + skipsClaims st cs) := by
  induction cs with
  | nil => intro st k; simp [storeAfterClaims, skipsClaims]
  | cons r rs ih =>
    intro st k
    simp [stepClaim, storeAfterClaims, skipsClaims, ih, Nat.add_assoc]

theorem foldl_stepRel_eq (rs : List RawRelation) :
    ∀ (st : GraphStore) (k : Nat),
      rs.foldl stepRel (st, k) = (storeAfterRels st rs, k + skipsRels st rs) := by
  induction rs with
  | nil => intro st k; simp [storeAfterRels, skipsRels]
  | cons r rest ih =>
    intro st k
    simp [stepRel, storeAfterRels, skipsRels, ih, Nat.add_assoc]

theorem ingest_batch_eq (c : Coordinator) (b : Batch) :
    ingest_batch c b =
      { store := storeAfterBatch c.store b,
        skipped := c.skipped + skipsClaims c.store b.claims +
          skipsRels (storeAfterClaims c.store b.claims) b.relations,
        state := CoordState.accumulating } := by
  simp [ingest_batch, foldl_stepClaim_eq, foldl_stepRel_eq, storeAfterBatch,
    storeAfterRels, Nat.add_assoc]

theorem storeAfterClaims_append (st : GraphStore) (l1 l2 : List RawClaim) :
    storeAfterClaims st (l1 ++ l2) =
      storeAfterClaims (storeAfterClaims st l1) l2 := by
  simp [storeAfterClaims, List.foldl_append]

theorem storeAfterRels_append (st : GraphStore) (l1 l2 : List RawRelation) :
    storeAfterRels st (l1 ++ l2) = storeAfterRels (storeAfterRels st l1) l2 := by
  simp [storeAfterRels, List.foldl_append]

theorem skipsClaims_append (l1 : List RawClaim) :
    ∀ (st : GraphStore) (l2 : List RawClaim),
      skipsClaims st (l1 ++ l2) =
        skipsClaims st l1 + skipsClaims (storeAfterClaims st l1) l2 := by
  induction l1 with
  | nil => intro st l2; simp [skipsClaims, storeAfterClaims]
  | cons r rs ih =>
    intro st l2
    simp [skipsClaims, storeAfterClaims, List.foldl_cons, ih, Nat.add_assoc]

theorem skipsRels_append (l1 : List RawRelation) :
    ∀ (st : GraphStore) (l2 : List RawRelation),
      skipsRels st (l1 ++ l2) =
        skipsRels st l1 + skipsRels (storeAfterRels st l1) l2 := by
  induction l1 with
  | nil => intro st l2; simp [skipsRels, storeAfterRels]
  | cons r rs ih =>
    intro st l2
    simp [skipsRels, storeAfterRels, List.foldl_cons, ih, Nat.add_assoc]

theorem claimStepStore_bad (st : GraphStore) (r : RawClaim)
    (h : parseClaimType r.claim_type = Option.none) : claimStepStore st r = st := by
  simp [claimStepStore, h]

theorem claimSkip_bad (st : GraphStore) (r : RawClaim)
    (h : parseClaimType r.claim_type = Option.none) : claimSkip st r = 1 := by
  simp [claimSkip, h]

theorem relStepStore_bad (st : GraphStore) (r : RawRelation)
    (h : parseRelationType r.relation_type = Option.none) : relStepStore st r = st := by
  simp [relStepStore, h]

theorem relSkip_bad (st : GraphStore) (r : RawRelation)
    (h : parseRelationType r.relation_type = Option.none) : relSkip st r = 1 := by
  simp [relSkip, h]

/-- C5: a single record with a claim_type or a relation_type outside the
enumerated sets - in an otherwise arbitrary batch - is skipped and counted by
itself: the resulting store is the one of the batch without that record, so
every remaining valid record is still inserted, exactly one extra skip is
counted, and the coordinator still reaches accumulating (neither the batch
ingestion nor any later analysis pass is aborted). -/
theorem c5_invalid_record_local (c : Coordinator) :
    (∀ (preC sufC : List RawClaim) (rels : List RawRelation) (rc : RawClaim),
      parseClaimType rc.claim_type = Option.none →
      (ingest_batch c { claims := preC ++ rc :: sufC, relations := rels }).store =
        (ingest_batch c { claims := preC ++ sufC, relations := rels }).store ∧
      (ingest_batch c { claims := preC ++ rc :: sufC, relations := rels }).skipped =
        (ingest_batch c { claims := preC ++ sufC, relations := rels }).skipped + 1 ∧
      (ingest_batch c { claims := preC ++ rc :: sufC, relations := rels }).state =
        CoordState.accumulating) ∧
    (∀ (cs : List RawClaim) (preR sufR : List RawRelation) (rr : RawRelation),
      parseRelationType rr.relation_type = Option.none →
      (ingest_batch c { claims := cs, relations := preR ++ rr :: sufR }).store =
        (ingest_batch c { claims := cs, relations := preR ++ sufR }).store ∧
      (ingest_batch c { claims := cs, relations := preR ++ rr :: sufR }).skipped =
        (ingest_batch c { claims := cs, relations := preR ++ sufR }).skipped + 1 ∧
      (ingest_batch c { claims := cs, relations := preR ++ rr :: sufR }).state =
        CoordState.accumulating) := by
  constructor
  · intro preC sufC rels rc hc
    have hcs : ∀ X : GraphStore,
        storeAfterClaims X (preC ++ rc :: sufC) = storeAfterClaims X (preC ++ sufC) := by
      intro X
      rw [storeAfterClaims_append, storeAfterClaims_append]
      simp only [storeAfterClaims, List.foldl_cons]
      rw [claimStepStore_bad _ _ hc]
    have hsk : ∀ X : GraphStore,
        skipsClaims X (preC ++ rc :: sufC) = skipsClaims X (preC ++ sufC) + 1 := by
      intro X
      rw [skipsClaims_append, skipsClaims_append]
      have h1 : skipsClaims (storeAfterClaims X preC) (rc :: sufC) =
          1 + skipsClaims (storeAfterClaims X preC) sufC := by
        simp only [skipsClaims]
        rw [claimSkip_bad _ _ hc, claimStepStore_bad _ _ hc]
      rw [h1]; omega
    rw [ingest_batch_eq, ingest_batch_eq]
    refine ⟨?_, ?_, rfl⟩
    · simp only [storeAfterBatch]
      show storeAfterRels _ _ = storeAfterRels _ _
      rw [hcs]
    · simp only
      show c.skipped + skipsClaims c.store (preC ++ rc :: sufC) +
          skipsRels (storeAfterClaims c.store (preC ++ rc :: sufC)) rels =
        c.skipped + skipsClaims c.store (preC ++ sufC) +
          skipsRels (storeAfterClaims c.store (preC ++ sufC)) rels + 1
      rw [hcs, hsk]
      omega
  · intro cs preR sufR rr hr
    have hrs : ∀ X : GraphStore,
        storeAfterRels X (preR ++ rr :: sufR) = storeAfterRels X (preR ++ sufR) := by
      intro X
      rw [storeAfterRels_append, storeAfterRels_append]
      simp only [storeAfterRels, List.foldl_cons]
      rw [relStepStore_bad _ _ hr]
    have hrk : ∀ X : GraphStore,
        skipsRels X (preR ++ rr :: sufR) = skipsRels X (preR ++ sufR) + 1 := by
      intro X
      rw [skipsRels_append, skipsRels_append]
      have h1 : skipsRels (storeAfterRels X preR) (rr :: sufR) =
          1 + skipsRels (storeAfterRels X preR) sufR := by
        simp only [skipsRels]
        rw [relSkip_bad _ _ hr, relStepStore_bad _ _ hr]
      rw [h1]; omega
    rw [ingest_batch_eq, ingest_batch_eq]
    refine ⟨?_, ?_, rfl⟩
    · simp only [storeAfterBatch]
      show storeAfterRels _ _ = storeAfterRels _ _
      rw [hrs]
    · simp only
      show c.skipped + skipsClaims c.store cs +
          skipsRels (storeAfterClaims c.store cs) (preR ++ rr :: sufR) =
        c.skipped + skipsClaims c.store cs +
          skipsRels (storeAfterClaims c.store cs) (preR ++ sufR) + 1
      rw [hrk]
      omega

/-- C5 witness: first, a batch with one claim of type assertion among valid
records loses only that claim; second, the spec section 8 scenario - a batch
whose claims are all valid and whose relation list holds one relation of type
conclusion before the valid support relation - loses only that relation,
counts one skip, and still inserts the valid relation. -/
theorem c5_witness :
    ((ingest_batch c0Empty { claims := [rawClaimA] ++ rawClaimBadType :: [rawClaimB],
                             relations := [rawRelAB] }).store =
       (ingest_batch c0Empty { claims := [rawClaimA] ++ [rawClaimB],
                               relations := [rawRelAB] }).store ∧
     (ingest_batch c0Empty { claims := [rawClaimA] ++ rawClaimBadType :: [rawClaimB],
                             relations := [rawRelAB] }).skipped =
       (ingest_batch c0Empty { claims := [rawClaimA] ++ [rawClaimB],
                               relations := [rawRelAB] }).skipped + 1 ∧
     (ingest_batch c0Empty { claims := [rawClaimA] ++ rawClaimBadType :: [rawClaimB],
                             relations := [rawRelAB] }).state =
       CoordState.accumulating) ∧
    ((ingest_batch c0Empty { claims := [rawClaimA, rawClaimB],
                             relations := [] ++ rawRelBadType :: [rawRelAB] }).store =
       (ingest_batch c0Empty { claims := [rawClaimA, rawClaimB],
                               relations := [] ++ [rawRelAB] }).store ∧
     (ingest_batch c0Empty { claims := [rawClaimA, rawClaimB],
                             relations := [] ++ rawRelBadType :: [rawRelAB] }).skipped =
       (ingest_batch c0Empty { claims := [rawClaimA, rawClaimB],
                               relations := [] ++ [rawRelAB] }).skipped + 1 ∧
     (ingest_batch c0Empty { claims := [rawClaimA, rawClaimB],
                             relations := [] ++ rawRelBadType :: [rawRelAB] }).state =
       CoordState.accumulating) :=
  ⟨(c5_invalid_record_local c0Empty).1 [rawClaimA] [rawClaimB] [rawRelAB]
      rawClaimBadType (by decide),
   (c5_invalid_record_local c0Empty).2 [rawClaimA, rawClaimB] [] [rawRelAB]
      rawRelBadType (by decide)⟩

/-- C7: a cross-speaker attack edge is flagged as a strawman - severity 0.5,
related to the attacked claim - exactly when the bag-of-words cosine
similarity of the two texts falls below the threshold; at or above the
threshold the edge is not flagged. -/
theorem c7_strawman_threshold (t : ℚ) (nodes : List ClaimNode)
    (e : RelationEdge) (src tgt : ClaimNode)
    (hsrc : nodes.find? (fun n => decide (n.id = e.source_id)) = some src)
    (htgt : nodes.find? (fun n => decide (n.id = e.target_id)) = some tgt)
    (hatk : e.relation_type = RelationType.attack)
    (hspk : src.speaker ≠ tgt.speaker) :
    (strawmanFlag t nodes e = some (mkStrawmanAnn e.source_id e.target_id) ↔
      simLtThreshold t src.text tgt.text = true) ∧
    (mkStrawmanAnn e.source_id e.target_id).severity = 1 / 2 ∧
    (mkStrawmanAnn e.source_id e.target_id).related_claim_ids = [e.target_id] := by
  refine ⟨?_, rfl, rfl⟩
  unfold strawmanFlag
  rw [hatk, if_pos rfl, hsrc, htgt]
  by_cases hsim : simLtThreshold t src.text tgt.text = true
  · simp [hspk, hsim]
  · simp [hspk, hsim]

/-- C7 witness: the spec section 8 pair - the claim about cutting the deficit
attacked by the bankrupt-retirees claim, different speakers, near-zero word
overlap - falls below the default threshold 0.75 and is flagged with severity
0.5 against the attacked claim. -/
theorem c7_witness :
    simLtThreshold strawmanSimilarityThresholdDefault strawSrcNode.text
      strawTgtNode.text = true ∧
    strawmanFlag strawmanSimilarityThresholdDefault strawNodes strawEdge =
      some (mkStrawmanAnn strawEdge.source_id strawEdge.target_id) := by
  have hd : dotProd (tokenize strawSrcNode.text) (tokenize strawTgtNode.text) = 0 := by
    rfl
  have hu : normSq (tokenize strawSrcNode.text) = 6 := by rfl
  have hv : normSq (tokenize strawTgtNode.text) = 8 := by rfl
  have hsim : simLtThreshold strawmanSimilarityThresholdDefault strawSrcNode.text
      strawTgtNode.text = true := by
    simp only [simLtThreshold, strawmanSimilarityThresholdDefault, hd, hu, hv]
    norm_num
  exact ⟨hsim,
    ((c7_strawman_threshold strawmanSimilarityThresholdDefault strawNodes
      strawEdge strawSrcNode strawTgtNode (by rfl) (by rfl) rfl
      (by decide)).1).mpr hsim⟩

/-- C6: on the planted 3-cycle c1 to c2 to c3 to c1 of support edges,
analyze() reports exactly that cycle, as the ordered id sequence rooted at
c1, in cycles_detected, and annotates c1 - and only with this one record -
with circular_reasoning, severity 0.7, related to c2 and c3. -/
theorem c6_planted_cycle :
    (analyzeStep plantedCoord).2.cycles_detected = [["c1", "c2", "c3"]] ∧
    ((analyzeStep plantedCoord).2.nodes.find? fun n => decide (n.id = "c1")) =
      some { mkClaimNode "c1" "X" "one" ClaimType.premise 0 with
             fallacies := [mkCircularAnn "c1" ["c2", "c3"]] } ∧
    (mkCircularAnn "c1" ["c2", "c3"]).fallacy_type =
      FallacyType.circular_reasoning ∧
    (mkCircularAnn "c1" ["c2", "c3"]).severity = 7 / 10 ∧
    (mkCircularAnn "c1" ["c2", "c3"]).related_claim_ids = ["c2", "c3"] :=
  ⟨by rfl, by rfl, rfl, rfl, rfl⟩

theorem speakerScore_overall (st : GraphStore) (s : String) :
    (speakerScore st s).overall_score =
      1 / 4 * (speakerScore st s).supported_ratio +
      1 / 4 * (1 - (speakerScore st s).fallacy_penalty) +
      1 / 5 * (speakerScore st s).factcheck_positive_rate +
      3 / 20 * (speakerScore st s).internal_consistency +
      3 / 20 * (speakerScore st s).direct_response_rate := rfl

/-- C3 (amended): every emitted SpeakerRigorScore satisfies overall_score =
0.25 * supported_ratio + 0.25 * (1 - fallacy_penalty) + 0.20 *
factcheck_positive_rate + 0.15 * internal_consistency + 0.15 *
direct_response_rate - the default weights with the fallacy component
entering as one minus the penalty; the scorer is a pure function of the
graph-plus-annotation state, so two runs on the same state coincide. -/
theorem c3_overall_weighted (st : GraphStore) (r : SpeakerRigorScore)
    (hr : r ∈ rigorScores st) :
    r.overall_score =
      1 / 4 * r.supported_ratio + 1 / 4 * (1 - r.fallacy_penalty) +
      1 / 5 * r.factcheck_positive_rate + 3 / 20 * r.internal_consistency +
      3 / 20 * r.direct_response_rate := by
  simp only [rigorScores] at hr
  rcases List.mem_map.mp hr with ⟨s, hs, rfl⟩
  exact speakerScore_overall st s

/-- C3 counterexample: on a one-claim graph the emitted overall_score is not
the literal weighted sum of the five components (the fallacy term enters as
one minus the penalty): the penalty is 0 and the two formulas differ by
0.25. -/
theorem c3_counterexample :
    speakerScore storeOneClaim "A" ∈ rigorScores storeOneClaim ∧
    ¬ ((speakerScore storeOneClaim "A").overall_score =
        1 / 4 * (speakerScore storeOneClaim "A").supported_ratio +
        1 / 4 * (speakerScore storeOneClaim "A").fallacy_penalty +
        1 / 5 * (speakerScore storeOneClaim "A").factcheck_positive_rate +
        3 / 20 * (speakerScore storeOneClaim "A").internal_consistency +
        3 / 20 * (speakerScore storeOneClaim "A").direct_response_rate) := by
  have hmem : speakerScore storeOneClaim "A" ∈ rigorScores storeOneClaim := by
    have h : rigorScores storeOneClaim = [speakerScore storeOneClaim "A"] := rfl
    rw [h]
    exact List.mem_singleton.mpr rfl
  refine ⟨hmem, ?_⟩
  intro heq
  have hov := speakerScore_overall storeOneClaim "A"
  have hp : (speakerScore storeOneClaim "A").fallacy_penalty = 0 := by
    show min 1 (qdiv0 (qsum ((storeOneClaim.nodes.filter fun n =>
      decide (n.speaker = "A")).map fun n =>
        qsum (n.fallacies.map fun f => f.severity)))
      (((storeOneClaim.nodes.filter fun n =>
        decide (n.speaker = "A")).length : ℚ))) = 0
    norm_num [storeOneClaim, mkClaimNode, qsum, qdiv0]
  rw [hov, hp] at heq
  linarith

/-- C3 witness: the weighted-sum identity holds at the one-claim graph. -/
theorem c3_witness :
    (speakerScore storeOneClaim "A").overall_score =
      1 / 4 * (speakerScore storeOneClaim "A").supported_ratio +
      1 / 4 * (1 - (speakerScore storeOneClaim "A").fallacy_penalty) +
      1 / 5 * (speakerScore storeOneClaim "A").factcheck_positive_rate +
      3 / 20 * (speakerScore storeOneClaim "A").internal_consistency +
      3 / 20 * (speakerScore storeOneClaim "A").direct_response_rate :=
  c3_overall_weighted storeOneClaim (speakerScore storeOneClaim "A") (by
    have h : rigorScores storeOneClaim = [speakerScore storeOneClaim "A"] := rfl
    rw [h]
    exact List.mem_singleton.mpr rfl)

theorem map_id_of_mem {α : Type} (l : List α) (f : α → α)
    (h : ∀ x ∈ l, f x = x) : l.map f = l := by
  induction l with
  | nil => rfl
  | cons a as ih =>
    simp only [List.map_cons, h a (List.mem_cons_self a as)]
    rw [ih fun x hx => h x (List.mem_cons_of_mem a hx)]

theorem stripNode_applyFun (a : FallacyAnn) (n : ClaimNode) :
    stripNode (if decide (n.id = a.claim_id) && !(nodeHasTuple n a) then
      { n with fallacies := n.fallacies ++ [a] } else n) = stripNode n := by
  split <;> rfl

theorem map_congr_of_mem {α β : Type} (l : List α) (f g : α → β)
    (h : ∀ x ∈ l, f x = g x) : l.map f = l.map g := by
  induction l with
  | nil => rfl
  | cons a as ih =>
    simp only [List.map_cons, h a (List.mem_cons_self a as)]
    rw [ih fun x hx => h x (List.mem_cons_of_mem a hx)]

theorem applyAnn_core (st : GraphStore) (a : FallacyAnn) :
    (applyAnn st a).core = st.core := by
  simp only [applyAnn, GraphStore.core, List.map_map, GraphStore.mk.injEq]
  refine ⟨?_, trivial⟩
  exact map_congr_of_mem _ _ _ fun n _ => by
    simp only [Function.comp]
    rw [stripNode_applyFun]

theorem applyAnns_core (l : List FallacyAnn) :
    ∀ st : GraphStore, (applyAnns st l).core = st.core := by
  induction l with
  | nil => intro st; rfl
  | cons a as ih =>
    intro st
    show (applyAnns (applyAnn st a) as).core = st.core
    rw [ih (applyAnn st a), applyAnn_core]

theorem detectorAnns_runAnalyzer (st : GraphStore) :
    detectorAnns (runAnalyzer st) = detectorAnns st := by
  show detectorCore (applyAnns st (detectorAnns st)).core = detectorCore st.core
  rw [applyAnns_core]

theorem cyclesOf_runAnalyzer (st : GraphStore) :
    cyclesOf (runAnalyzer st) = cyclesOf st := by
  show elementaryCycles (applyAnns st (detectorAnns st)).core =
    elementaryCycles st.core
  rw [applyAnns_core]

theorem sameTuple_self (a : FallacyAnn) : sameTuple a a = true := by
  simp [sameTuple]

theorem applyAnn_of_sat (st : GraphStore) (a : FallacyAnn)
    (h : ∀ n ∈ st.nodes, n.id = a.claim_id → nodeHasTuple n a = true) :
    applyAnn st a = st := by
  have hmap : (st.nodes.map fun n =>
      if decide (n.id = a.claim_id) && !(nodeHasTuple n a) then
        { n with fallacies := n.fallacies ++ [a] } else n) = st.nodes := by
    apply map_id_of_mem
    intro n hn
    by_cases hid : n.id = a.claim_id
    · rw [if_neg]
      simp [hid, h n hn hid]
    · rw [if_neg]
      simp [hid]
  show { st with nodes := _ } = st
  rw [hmap]

theorem nodeHasTuple_applyAnn_self (st : GraphStore) (a : FallacyAnn) :
    ∀ n ∈ (applyAnn st a).nodes, n.id = a.claim_id → nodeHasTuple n a = true := by
  intro n hn hid
  simp only [applyAnn, List.mem_map] at hn
  rcases hn with ⟨m, hm, rfl⟩
  by_cases hc : (decide (m.id = a.claim_id) && !(nodeHasTuple m a)) = true
  · rw [if_pos hc]
    simp only [nodeHasTuple, List.any_append, List.any_cons, List.any_nil,
      sameTuple_self]
    simp
  · rw [if_neg hc]
    rw [if_neg hc] at hid
    simp only [Bool.and_eq_true, decide_eq_true_eq, Bool.not_eq_eq_eq_not,
      Bool.not_true, not_and] at hc
    rcases Bool.eq_false_or_eq_true (nodeHasTuple m a) with ht | hf
    · exact ht
    · exact absurd hf (hc hid)

theorem nodeHasTuple_applyAnn_mono (st : GraphStore) (b a : FallacyAnn)
    (h : ∀ n ∈ st.nodes, n.id = a.claim_id → nodeHasTuple n a = true) :
    ∀ n ∈ (applyAnn st b).nodes, n.id = a.claim_id → nodeHasTuple n a = true := by
  intro n hn hid
  simp only [applyAnn, List.mem_map] at hn
  rcases hn with ⟨m, hm, rfl⟩
  by_cases hc : (decide (m.id = b.claim_id) && !(nodeHasTuple m b)) = true
  · rw [if_pos hc]
    rw [if_pos hc] at hid
    have hmid : m.id = a.claim_id := hid
    simp only [nodeHasTuple, List.map_append, List.any_append]
    have := h m hm hmid
    simp only [nodeHasTuple] at this
    simp [this]
  · rw [if_neg hc]
    rw [if_neg hc] at hid
    exact h m hm hid

theorem applyAnns_sat_mono (l : List FallacyAnn) (a : FallacyAnn) :
    ∀ st : GraphStore,
      (∀ n ∈ st.nodes, n.id = a.claim_id → nodeHasTuple n a = true) →
      ∀ n ∈ (applyAnns st l).nodes, n.id = a.claim_id → nodeHasTuple n a = true := by
  induction l with
  | nil => intro st h; exact h
  | cons b bs ih =>
    intro st h
    exact ih (applyAnn st b) (nodeHasTuple_applyAnn_mono st b a h)

theorem applyAnns_all_sat (l : List FallacyAnn) :
    ∀ st : GraphStore, ∀ a ∈ l,
      ∀ n ∈ (applyAnns st l).nodes, n.id = a.claim_id → nodeHasTuple n a = true := by
  induction l with
  | nil => intro st a ha; exact absurd ha (List.not_mem_nil a)
  | cons b bs ih =>
    intro st a ha
    rcases List.mem_cons.mp ha with rfl | ha2
    · exact applyAnns_sat_mono bs a (applyAnn st a)
        (nodeHasTuple_applyAnn_self st a)
    · exact ih (applyAnn st b) a ha2

theorem applyAnns_of_all_sat (l : List FallacyAnn) :
    ∀ st : GraphStore,
      (∀ a ∈ l, ∀ n ∈ st.nodes, n.id = a.claim_id → nodeHasTuple n a = true) →
      applyAnns st l = st := by
  induction l with
  | nil => intro st _; rfl
  | cons b bs ih =>
    intro st h
    show applyAnns (applyAnn st b) bs = st
    rw [applyAnn_of_sat st b (h b (List.mem_cons_self b bs))]
    exact ih st fun a ha => h a (List.mem_cons_of_mem b ha)

theorem runAnalyzer_idem (st : GraphStore) :
    runAnalyzer (runAnalyzer st) = runAnalyzer st := by
  show applyAnns (runAnalyzer st) (detectorAnns (runAnalyzer st)) = runAnalyzer st
  rw [detectorAnns_runAnalyzer]
  exact applyAnns_of_all_sat (detectorAnns st) (runAnalyzer st)
    (applyAnns_all_sat (detectorAnns st) st)

/-- C2: re-running analyze() on an unchanged graph is the identity - the
second pass returns a byte-identical coordinator and snapshot, so the fallacy
sets, the (claim_id, fallacy_type, detection_method) tuples and the cycle
lists are unchanged and never duplicated. -/
theorem c2_analyze_idempotent (c : Coordinator) :
    analyzeStep ((analyzeStep c).1) = analyzeStep c := by
  simp [analyzeStep, runAnalyzer_idem]

theorem anyId_iff (nodes : List ClaimNode) (x : String) :
    (nodes.any fun n => decide (n.id = x)) = true ↔
      x ∈ nodes.map fun n => n.id := by
  simp [List.any_eq_true, List.mem_map]

theorem claimStepStore_decomp (st : GraphStore) (r : RawClaim) :
    claimStepStore st r = { nodes := nodesStep st.nodes r, edges := st.edges } := by
  unfold claimStepStore nodesStep GraphStore.add_node GraphStore.hasNode
  cases parseClaimType r.claim_type with
  | none => rfl
  | some ct =>
    simp only [mkNode]
    by_cases h : (st.nodes.any fun n => decide (n.id = r.id)) = true
    · simp [h]
    · simp [h]

theorem relStepStore_decomp (st : GraphStore) (r : RawRelation) :
    relStepStore st r =
      { nodes := st.nodes,
        edges := st.edges ++ (acceptRel st.nodes r).toList } := by
  unfold relStepStore acceptRel GraphStore.add_edge GraphStore.hasNode
  cases parseRelationType r.relation_type with
  | none => simp
  | some rt =>
    simp only [mkEdge]
    by_cases h1 : ((st.nodes.any fun n => decide (n.id = r.source_id)) &&
        (st.nodes.any fun n => decide (n.id = r.target_id))) = true
    · by_cases h2 : r.source_id = r.target_id
      · simp only [if_pos h1, if_pos h2, Option.toList, List.append_nil]
      · simp only [if_pos h1, if_neg h2, Option.toList]
    · simp only [if_neg h1, Option.toList, List.append_nil]

theorem storeAfterClaims_nodes (cs : List RawClaim) :
    ∀ st : GraphStore,
      (storeAfterClaims st cs).nodes = List.foldl nodesStep st.nodes cs := by
  induction cs with
  | nil => intro st; rfl
  | cons r rest ih =>
    intro st
    show (storeAfterClaims (claimStepStore st r) rest).nodes = _
    rw [ih, claimStepStore_decomp]
    rfl

theorem storeAfterClaims_edges (cs : List RawClaim) :
    ∀ st : GraphStore, (storeAfterClaims st cs).edges = st.edges := by
  induction cs with
  | nil => intro st; rfl
  | cons r rest ih =>
    intro st
    show (storeAfterClaims (claimStepStore st r) rest).edges = _
    rw [ih, claimStepStore_decomp]

theorem storeAfterRels_nodes (rs : List RawRelation) :
    ∀ st : GraphStore, (storeAfterRels st rs).nodes = st.nodes := by
  induction rs with
  | nil => intro st; rfl
  | cons r rest ih =>
    intro st
    show (storeAfterRels (relStepStore st r) rest).nodes = _
    rw [ih, relStepStore_decomp]

theorem storeAfterRels_edges (rs : List RawRelation) :
    ∀ st : GraphStore,
      (storeAfterRels st rs).edges =
        st.edges ++ rs.filterMap (acceptRel st.nodes) := by
  induction rs with
  | nil =>
    intro st
    rw [List.filterMap_nil, List.append_nil]
    rfl
  | cons r rest ih =>
    intro st
    show (storeAfterRels (relStepStore st r) rest).edges = _
    rw [ih, relStepStore_decomp]
    show (st.edges ++ (acceptRel st.nodes r).toList) ++
        rest.filterMap (acceptRel st.nodes) =
      st.edges ++ (r :: rest).filterMap (acceptRel st.nodes)
    rw [List.append_assoc]
    congr 1
    cases hacc : acceptRel st.nodes r <;>
      simp [List.filterMap_cons, hacc, Option.toList]

theorem storeAfterBatch_nodes (st : GraphStore) (b : Batch) :
    (storeAfterBatch st b).nodes = List.foldl nodesStep st.nodes b.claims := by
  unfold storeAfterBatch
  rw [show b.relations.foldl relStepStore (storeAfterClaims st b.claims) =
      storeAfterRels (storeAfterClaims st b.claims) b.relations from rfl,
    storeAfterRels_nodes, storeAfterClaims_nodes]

theorem storeAfterBatch_edges (st : GraphStore) (b : Batch) :
    (storeAfterBatch st b).edges =
      st.edges ++ b.relations.filterMap
        (acceptRel (List.foldl nodesStep st.nodes b.claims)) := by
  unfold storeAfterBatch
  rw [show b.relations.foldl relStepStore (storeAfterClaims st b.claims) =
      storeAfterRels (storeAfterClaims st b.claims) b.relations from rfl,
    storeAfterRels_edges, storeAfterClaims_edges, storeAfterClaims_nodes]

theorem graphStore_ext (s1 s2 : GraphStore) (hn : s1.nodes = s2.nodes)
    (he : s1.edges = s2.edges) : s1 = s2 := by
  cases s1
  cases s2
  congr

theorem mem_id_nodesStep (nodes : List ClaimNode) (r : RawClaim) (x : String)
    (h : x ∈ nodes.map fun n => n.id) :
    x ∈ (nodesStep nodes r).map fun n => n.id := by
  unfold nodesStep
  cases parseClaimType r.claim_type with
  | none => exact h
  | some ct =>
    show x ∈ List.map (fun n => n.id)
      (if (nodes.any fun n => decide (n.id = r.id)) = true then nodes
       else nodes ++ [mkNode r ct])
    by_cases hc : (nodes.any fun n => decide (n.id = r.id)) = true
    · rw [if_pos hc]
      exact h
    · rw [if_neg hc, List.map_append]
      exact List.mem_append.mpr (Or.inl h)

theorem mem_id_foldl_nodesStep (cs : List RawClaim) :
    ∀ (nodes : List ClaimNode) (x : String), x ∈ nodes.map (fun n => n.id) →
      x ∈ (List.foldl nodesStep nodes cs).map fun n => n.id := by
  induction cs with
  | nil => intro nodes x h; exact h
  | cons r rest ih =>
    intro nodes x h
    exact ih _ x (mem_id_nodesStep nodes r x h)

theorem filterMap_congr_of_mem {α β : Type} (l : List α) (f g : α → Option β)
    (h : ∀ x ∈ l, f x = g x) : l.filterMap f = l.filterMap g := by
  induction l with
  | nil => rfl
  | cons a as ih =>
    rw [List.filterMap_cons, List.filterMap_cons, h a (List.mem_cons_self a as),
      ih fun x hx => h x (List.mem_cons_of_mem a hx)]

theorem acceptRel_stable (nodesA nodesB : List ClaimNode) (r : RawRelation)
    (hmono : ∀ x : String, x ∈ nodesA.map (fun n => n.id) →
      x ∈ nodesB.map fun n => n.id)
    (hok : relShapeOk r = true →
      (nodesA.any fun n => decide (n.id = r.source_id)) = true ∧
      (nodesA.any fun n => decide (n.id = r.target_id)) = true) :
    acceptRel nodesA r = acceptRel nodesB r := by
  unfold acceptRel
  cases hp : parseRelationType r.relation_type with
  | none => rfl
  | some rt =>
    by_cases hself : r.source_id = r.target_id
    · simp [hself]
    · have hshape : relShapeOk r = true := by simp [relShapeOk, hp, hself]
      obtain ⟨hs, ht⟩ := hok hshape
      have hsB : (nodesB.any fun n => decide (n.id = r.source_id)) = true :=
        (anyId_iff nodesB r.source_id).mpr
          (hmono _ ((anyId_iff nodesA r.source_id).mp hs))
      have htB : (nodesB.any fun n => decide (n.id = r.target_id)) = true :=
        (anyId_iff nodesB r.target_id).mpr
          (hmono _ ((anyId_iff nodesA r.target_id).mp ht))
      simp [hs, ht, hsB, htB, hself]

theorem batchRelsOk_spec (st : GraphStore) (b : Batch)
    (h : batchRelsOk st b = true) (r : RawRelation) (hr : r ∈ b.relations)
    (hshape : relShapeOk r = true) :
    ((List.foldl nodesStep st.nodes b.claims).any fun n =>
      decide (n.id = r.source_id)) = true ∧
    ((List.foldl nodesStep st.nodes b.claims).any fun n =>
      decide (n.id = r.target_id)) = true := by
  unfold batchRelsOk at h
  have h2 := List.all_eq_true.mp h r hr
  rw [if_pos hshape] at h2
  simp only [GraphStore.hasNode] at h2
  rw [storeAfterClaims_nodes] at h2
  simp only [Bool.and_eq_true] at h2
  exact h2

theorem storeAfterBatch_append (st : GraphStore) (b1 b2 : Batch)
    (h1 : batchRelsOk st b1 = true) :
    storeAfterBatch (storeAfterBatch st b1) b2 =
      storeAfterBatch st (batchAppend b1 b2) := by
  apply graphStore_ext
  · rw [storeAfterBatch_nodes, storeAfterBatch_nodes, storeAfterBatch_nodes]
    simp [batchAppend, List.foldl_append]
  · rw [storeAfterBatch_edges, storeAfterBatch_edges, storeAfterBatch_edges,
      storeAfterBatch_nodes]
    simp only [batchAppend, List.foldl_append, List.filterMap_append,
      List.append_assoc]
    congr 1
    congr 1
    apply filterMap_congr_of_mem
    intro r hr
    apply acceptRel_stable
    · intro x hx
      exact mem_id_foldl_nodesStep b2.claims _ x hx
    · intro hshape
      exact batchRelsOk_spec st b1 h1 r hr hshape

theorem seq_eq_merged (bs : List Batch) :
    ∀ st : GraphStore, fwdOkB st bs = true →
      List.foldl storeAfterBatch st bs = storeAfterBatch st (mergeBatches bs) := by
  induction bs with
  | nil =>
    intro st _
    show st = storeAfterBatch st { claims := [], relations := [] }
    rfl
  | cons b rest ih =>
    intro st h
    simp only [fwdOkB, Bool.and_eq_true] at h
    show List.foldl storeAfterBatch (storeAfterBatch st b) rest = _
    rw [ih (storeAfterBatch st b) h.2,
      storeAfterBatch_append st b (mergeBatches rest) h.1]
    rfl

theorem foldl_ingest_store (bs : List Batch) :
    ∀ c : Coordinator,
      (List.foldl ingest_batch c bs).store = List.foldl storeAfterBatch c.store bs := by
  induction bs with
  | nil => intro c; rfl
  | cons b rest ih =>
    intro c
    show (List.foldl ingest_batch (ingest_batch c b) rest).store = _
    rw [ih (ingest_batch c b), ingest_batch_eq]
    rfl

/-- C1 (amended): ingesting batches one by one and then analyzing emits the
same snapshot - node set, edge set, fallacy and rigor output - as ingesting
the merged batch and analyzing once, given no duplicate claim ids across
batches and given that every relation that could be inserted at all
references only claims of its own or an earlier batch. -/
theorem c1_batch_equivalence (c : Coordinator) (bs : List Batch)
    (hdup : (bs.foldr (fun b acc => (b.claims.map fun r => r.id) ++ acc) []).Nodup)
    (hfwd : fwdOkB c.store bs = true) :
    (analyzeStep (List.foldl ingest_batch c bs)).2 =
      (analyzeStep (ingest_batch c (mergeBatches bs))).2 := by
  have hst : (List.foldl ingest_batch c bs).store =
      (ingest_batch c (mergeBatches bs)).store := by
    rw [foldl_ingest_store, ingest_batch_eq]
    exact seq_eq_merged bs c.store hfwd
  show snapFromStore (runAnalyzer (List.foldl ingest_batch c bs).store) =
    snapFromStore (runAnalyzer (ingest_batch c (mergeBatches bs)).store)
  rw [hst]

/-- C1 counterexample: with the relation a supports b arriving one batch
before the claims a and b - no duplicate claim ids across batches - the
incremental run skips the relation while the merged run inserts it, so the
two snapshots differ. -/
theorem c1_counterexample :
    (([batchRelOnly, batchClaimsOnly] : List Batch).foldr
      (fun b acc => (b.claims.map fun r => r.id) ++ acc) []).Nodup ∧
    (analyzeStep (List.foldl ingest_batch c0Empty
      [batchRelOnly, batchClaimsOnly])).2 ≠
      (analyzeStep (ingest_batch c0Empty
        (mergeBatches [batchRelOnly, batchClaimsOnly]))).2 := by
  constructor
  · decide
  · intro h
    have he := congrArg GraphSnapshot.edges h
    have h1 : (analyzeStep (List.foldl ingest_batch c0Empty
        [batchRelOnly, batchClaimsOnly])).2.edges = [] := by rfl
    have h2 : (analyzeStep (ingest_batch c0Empty
        (mergeBatches [batchRelOnly, batchClaimsOnly]))).2.edges =
        [mkEdge rawRelAB RelationType.support] := by rfl
    rw [h1, h2] at he
    exact List.noConfusion he

/-- C1 witness: on two well-ordered batches - claim a, then claim b plus the
relation a supports b - the incremental and the merged snapshots agree. -/
theorem c1_witness :
    ((([batchW1, batchW2] : List Batch).foldr
        (fun b acc => (b.claims.map fun r => r.id) ++ acc) []).Nodup ∧
      fwdOkB c0Empty.store [batchW1, batchW2] = true) ∧
    (analyzeStep (List.foldl ingest_batch c0Empty [batchW1, batchW2])).2 =
      (analyzeStep (ingest_batch c0Empty (mergeBatches [batchW1, batchW2]))).2 :=
  ⟨⟨by decide, by rfl⟩,
   c1_batch_equivalence c0Empty [batchW1, batchW2] (by decide) (by rfl)⟩
